/-
  Verification of the tea-ceremony record-keeping backend
  (lessons / role entries / items; endpoints: list_lessons, search_items,
  get_lesson_detail, create_role_entry, add_item_to_lesson).

  The relational store is modelled as in-memory lists of rows; SQL queries
  are translated clause by clause (WHERE as filter, ORDER BY as insertion
  sort on the key, LIMIT/OFFSET as take/drop, correlated subqueries with
  ORDER BY id DESC LIMIT 1 as a maximum-by-id selection).  Dates are
  encoded as natural numbers in YYYYMMDD form, so that the SQL YEAR()
  function is division by 10000 and date comparison is numeric comparison.
  MySQL LIKE with a %q% pattern (the only pattern shape the code builds)
  is modelled as substring containment.
-/
import Mathlib

namespace TeaCeremony

/-! ### String helpers (Python `strip`, truthiness, SQL LIKE %q%) -/

/-- Characters removed by Python's `str.strip()` (ASCII whitespace). -/
def isPySpace (c : Char) : Bool :=
  c = ' ' || c = '\t' || c = '\n' || c = '\r' || c = '\x0b' || c = '\x0c'

/-- Python `s.strip()`: drop leading and trailing whitespace. -/
def pyStrip (s : String) : String :=
  ⟨((s.data.dropWhile isPySpace).reverse.dropWhile isPySpace).reverse⟩

/-- `needle` occurs as a contiguous substring of `hay` (character lists). -/
def charsContain (hay needle : List Char) : Bool :=
  match hay with
  | [] => needle.isEmpty
  | _ :: t => needle.isPrefixOf hay || charsContain t needle

/-- SQL `hay LIKE '%needle%'` for a literal needle: substring containment. -/
def strContains (hay needle : String) : Bool :=
  charsContain hay.data needle.data

/-- `YEAR(d)` for a date encoded as YYYYMMDD. -/
def yearOf (d : Nat) : Nat := d / 10000

/-! ### Rows of the three tables -/

/-- A row of the `lessons` table. -/
structure Lesson where
  id : Nat
  userId : Nat
  practicedOn : Nat
  practiceName : Option String
deriving Repr, DecidableEq

/-- A row of the `role_entries` table. -/
structure RoleEntry where
  id : Nat
  lessonId : Nat
  role : String
  temaeName : Option String
  note : Option String
  createdAt : Nat
deriving Repr, DecidableEq

/-- A row of the `lesson_items` table.  `section_` mirrors the `section`
column (a Lean keyword). -/
structure Item where
  id : Nat
  lessonId : Nat
  roleEntryId : Option Nat
  section_ : String
  itemType : String
  title : Option String
  mei : Option String
  maker : Option String
  note : Option String
  searchText : String
  createdAt : Nat
deriving Repr, DecidableEq

/-- The database state: the three tables. -/
structure DB where
  lessons : List Lesson
  roleEntries : List RoleEntry
  items : List Item
deriving Repr, DecidableEq

/-- Errors surfaced by the endpoints: HTTP 404 and HTTP 400. -/
inductive ApiError where
  | notFound (msg : String)
  | validation (msg : String)
deriving Repr, DecidableEq

/-! ### `ORDER BY id DESC LIMIT 1`: maximum by a numeric key -/

/-- First row of a result set ordered by `key` descending (`ORDER BY key
DESC LIMIT 1`); `none` on an empty set. -/
def maxBy (key : α → Nat) : List α → Option α
  | [] => none
  | x :: t =>
    match maxBy key t with
    | none => some x
    | some m => if key m < key x then some x else some m

/-! ### `list_lessons` (GET /lessons) -/

/-- The correlated subquery of `list_lessons`: the `temae_name` of the
highest-id entry of lesson `lid` with the given role and a non-NULL
`temae_name`. -/
def latestTemae (entries : List RoleEntry) (lid : Nat) (role : String) :
    Option String :=
  (maxBy (fun e => e.id)
    (entries.filter
      (fun e => e.lessonId = lid && e.role = role && e.temaeName.isSome))).bind
    (fun e => e.temaeName)

/-- One row of the `list_lessons` response. -/
structure LessonRow where
  id : Nat
  practicedOn : Nat
  practiceName : Option String
  teishuTemaeName : Option String
  kyakuTemaeName : Option String
deriving Repr, DecidableEq

/-- `ORDER BY practiced_on DESC, id DESC` on lessons. -/
def lessonLater (a b : Lesson) : Prop :=
  b.practicedOn < a.practicedOn ∨
    (b.practicedOn = a.practicedOn ∧ b.id ≤ a.id)

instance : DecidableRel lessonLater := fun a b => by
  unfold lessonLater; infer_instance

/-- The same order on response rows. -/
def rowLater (a b : LessonRow) : Prop :=
  b.practicedOn < a.practicedOn ∨
    (b.practicedOn = a.practicedOn ∧ b.id ≤ a.id)

instance : DecidableRel rowLater := fun a b => by
  unfold rowLater; infer_instance

/-- The response row built for lesson `l` (the SELECT list of
`list_lessons`, the two subqueries included). -/
def lessonRow (db : DB) (l : Lesson) : LessonRow :=
  { id := l.id
    practicedOn := l.practicedOn
    practiceName := l.practiceName
    teishuTemaeName := latestTemae db.roleEntries l.id "teishu"
    kyakuTemaeName := latestTemae db.roleEntries l.id "kyaku" }

/-- GET /lessons: lessons of user 1, ordered by practice date then id,
both descending, capped at 200 rows. -/
def list_lessons (db : DB) : List LessonRow :=
  (((db.lessons.filter (fun l => l.userId = 1)).insertionSort
      lessonLater).take 200).map (lessonRow db)

/-! ### `search_items` (GET /search) -/

/-- The query parameters of GET /search (all filters optional; `limit`
is validated to 1..200 by the transport, `offset` to ≥ 0). -/
structure SearchParams where
  query : Option String
  year : Option Nat
  practiceName : Option String
  itemType : Option String
  section_ : Option String
  limit : Nat
  offset : Nat
deriving Repr, DecidableEq

/-- `q = (query or "").strip(); q_like = f"%{q}%" if q else None` — the
`%q%` pattern is represented by its contained text `q`. -/
def qLike (query : Option String) : Option String :=
  let q := pyStrip (query.getD "")
  if q = "" then none else some q

/-- WHERE conjunct `l.user_id = :user_id`. -/
def userOk (l : Lesson) : Bool := l.userId = 1

/-- WHERE conjunct `(:year IS NULL OR YEAR(l.practiced_on) = :year)`. -/
def yearOk (p : SearchParams) (l : Lesson) : Bool :=
  match p.year with
  | none => true
  | some y => yearOf l.practicedOn = y

/-- WHERE conjunct `(:practice_name IS NULL OR l.practice_name LIKE
CONCAT('%', :practice_name, '%'))`; a NULL `practice_name` column makes
the LIKE comparison NULL, which WHERE treats as false. -/
def practiceNameOk (p : SearchParams) (l : Lesson) : Bool :=
  match p.practiceName with
  | none => true
  | some pn =>
    match l.practiceName with
    | none => false
    | some s => strContains s pn

/-- WHERE conjunct `(:item_type IS NULL OR i.item_type = :item_type)`. -/
def itemTypeOk (p : SearchParams) (i : Item) : Bool :=
  match p.itemType with
  | none => true
  | some t => i.itemType = t

/-- WHERE conjunct `(:section IS NULL OR i.section = :section)`. -/
def sectionOk (p : SearchParams) (i : Item) : Bool :=
  match p.section_ with
  | none => true
  | some s => i.section_ = s

/-- WHERE conjunct `(:q_like IS NULL OR i.search_text LIKE :q_like)`. -/
def queryOk (p : SearchParams) (i : Item) : Bool :=
  match qLike p.query with
  | none => true
  | some q => strContains i.searchText q

/-- The whole WHERE clause of the search query. -/
def searchMatch (p : SearchParams) (l : Lesson) (i : Item) : Bool :=
  userOk l && yearOk p l && practiceNameOk p l &&
    itemTypeOk p i && sectionOk p i && queryOk p i

/-- `FROM lessons l JOIN lesson_items i ON i.lesson_id = l.id`. -/
def joinRows (db : DB) : List (Lesson × Item) :=
  db.lessons.flatMap
    (fun l => (db.items.filter (fun i => i.lessonId = l.id)).map
      (fun i => (l, i)))

/-- The joined rows surviving the WHERE clause (before ORDER BY and
pagination). -/
def matchedRows (db : DB) (p : SearchParams) : List (Lesson × Item) :=
  (joinRows db).filter (fun r => searchMatch p r.1 r.2)

/-- `ORDER BY l.practiced_on DESC, i.id DESC` on joined rows. -/
def joinedLater (a b : Lesson × Item) : Prop :=
  b.1.practicedOn < a.1.practicedOn ∨
    (b.1.practicedOn = a.1.practicedOn ∧ b.2.id ≤ a.2.id)

instance : DecidableRel joinedLater := fun a b => by
  unfold joinedLater; infer_instance

/-- One element of the `results` list of the search response. -/
structure SearchRow where
  lessonId : Nat
  practicedOn : Nat
  practiceName : Option String
  itemId : Nat
  section_ : String
  itemType : String
  title : Option String
  mei : Option String
  maker : Option String
  note : Option String
deriving Repr, DecidableEq

/-- The per-row response shaping of `search_items`. -/
def mkSearchRow (r : Lesson × Item) : SearchRow :=
  { lessonId := r.1.id
    practicedOn := r.1.practicedOn
    practiceName := r.1.practiceName
    itemId := r.2.id
    section_ := r.2.section_
    itemType := r.2.itemType
    title := r.2.title
    mei := r.2.mei
    maker := r.2.maker
    note := r.2.note }

/-- The search response: count, pagination echo, filters echo, rows. -/
structure SearchResponse where
  count : Nat
  limit : Nat
  offset : Nat
  filterQuery : Option String
  filterYear : Option Nat
  filterPracticeName : Option String
  filterItemType : Option String
  filterSection : Option String
  results : List SearchRow
deriving Repr, DecidableEq

/-- GET /search: filter, order, paginate, shape, and count the rows. -/
def search_items (db : DB) (p : SearchParams) : SearchResponse :=
  let sorted := (matchedRows db p).insertionSort joinedLater
  let page := (sorted.drop p.offset).take p.limit
  let results := page.map mkSearchRow
  { count := results.length
    limit := p.limit
    offset := p.offset
    filterQuery := p.query
    filterYear := p.year
    filterPracticeName := p.practiceName
    filterItemType := p.itemType
    filterSection := p.section_
    results := results }

/-! ### `get_lesson_detail` (GET /lessons/{lesson_id}) -/

/-- The `item_payload` dict built for each item in `get_lesson_detail`
(no `lesson_id`, no `search_text`). -/
structure ItemPayload where
  itemId : Nat
  roleEntryId : Option Nat
  section_ : String
  itemType : String
  title : Option String
  mei : Option String
  maker : Option String
  note : Option String
  createdAt : Nat
deriving Repr, DecidableEq

/-- Shape an item row into its payload. -/
def itemPayload (it : Item) : ItemPayload :=
  { itemId := it.id
    roleEntryId := it.roleEntryId
    section_ := it.section_
    itemType := it.itemType
    title := it.title
    mei := it.mei
    maker := it.maker
    note := it.note
    createdAt := it.createdAt }

/-- One value of `entry_map` / one element of a tab's `entries` list. -/
structure EntryOut where
  roleEntryId : Nat
  role : String
  temaeName : Option String
  note : Option String
  createdAt : Nat
  items : List ItemPayload
deriving Repr, DecidableEq

/-- The dict value initially stored for a role entry (`items` empty). -/
def entryOut (e : RoleEntry) : EntryOut :=
  { roleEntryId := e.id
    role := e.role
    temaeName := e.temaeName
    note := e.note
    createdAt := e.createdAt
    items := [] }

/-- Python dict assignment `m[k] = v`: overwrite in place when the key
exists (keeping its insertion position), append otherwise. -/
def dictInsert (m : List (Nat × EntryOut)) (k : Nat) (v : EntryOut) :
    List (Nat × EntryOut) :=
  match m with
  | [] => [(k, v)]
  | kv :: t => if kv.1 = k then (k, v) :: t else kv :: dictInsert t k v

/-- Python `m.get(k)`. -/
def dictGet (m : List (Nat × EntryOut)) (k : Nat) : Option EntryOut :=
  (m.find? (fun kv => kv.1 = k)).map (fun kv => kv.2)

/-- Python `m[k]["items"].append(p)` (keys built by `dictInsert` are
distinct, so at most one binding changes). -/
def dictAppendItem (m : List (Nat × EntryOut)) (k : Nat) (p : ItemPayload) :
    List (Nat × EntryOut) :=
  m.map (fun kv =>
    if kv.1 = k then (kv.1, { kv.2 with items := kv.2.items ++ [p] }) else kv)

/-- The `entry_map` building loop over the fetched role entries. -/
def buildEntryMap (entries : List RoleEntry) : List (Nat × EntryOut) :=
  entries.foldl (fun m e => dictInsert m e.id (entryOut e)) []

/-- `ORDER BY id ASC` on role entries. -/
def entryEarlier (a b : RoleEntry) : Prop := a.id ≤ b.id

instance : DecidableRel entryEarlier := fun a b => by
  unfold entryEarlier; infer_instance

/-- `ORDER BY id ASC` on items. -/
def itemEarlier (a b : Item) : Prop := a.id ≤ b.id

instance : DecidableRel itemEarlier := fun a b => by
  unfold itemEarlier; infer_instance

/-- The role entries fetched for the lesson, in creation order. -/
def lessonEntries (db : DB) (lid : Nat) : List RoleEntry :=
  (db.roleEntries.filter (fun e => e.lessonId = lid)).insertionSort
    entryEarlier

/-- The items fetched for the lesson, in creation order. -/
def lessonItems (db : DB) (lid : Nat) : List Item :=
  (db.items.filter (fun i => i.lessonId = lid)).insertionSort itemEarlier

/-- The grouping step for one item: no role-entry reference, or an
unknown one, goes to the tea-room list; a known reference appends the
payload to that entry's list. -/
def groupStep (st : List ItemPayload × List (Nat × EntryOut)) (it : Item) :
    List ItemPayload × List (Nat × EntryOut) :=
  let p := itemPayload it
  match it.roleEntryId with
  | none => (st.1 ++ [p], st.2)
  | some rid =>
    match dictGet st.2 rid with
    | none => (st.1 ++ [p], st.2)
    | some _ => (st.1, dictAppendItem st.2 rid p)

/-- The grouping loop over all fetched items. -/
def groupItems (items : List Item)
    (st : List ItemPayload × List (Nat × EntryOut)) :
    List ItemPayload × List (Nat × EntryOut) :=
  items.foldl groupStep st

/-- The GET /lessons/{id} response body. -/
structure LessonDetail where
  lessonId : Nat
  practicedOn : Nat
  practiceName : Option String
  chashitsu : List ItemPayload
  teishu : List EntryOut
  kyaku : List EntryOut
deriving Repr, DecidableEq

/-- GET /lessons/{id}: fetch the owned lesson (404 when absent), fetch
its role entries and items, group the items into the three tabs. -/
def get_lesson_detail (db : DB) (lessonId : Nat) :
    Except ApiError LessonDetail :=
  match db.lessons.find? (fun l => l.id = lessonId && l.userId = 1) with
  | none => .error (.notFound "Lesson not found")
  | some lesson =>
    let entries := lessonEntries db lessonId
    let entryMap := buildEntryMap entries
    let items := lessonItems db lessonId
    let st := groupItems items ([], entryMap)
    let values := st.2.map (fun kv => kv.2)
    .ok
      { lessonId := lesson.id
        practicedOn := lesson.practicedOn
        practiceName := lesson.practiceName
        chashitsu := st.1
        teishu := values.filter (fun v => v.role = "teishu")
        kyaku := values.filter (fun v => v.role = "kyaku") }

/-- Occurrences of payload `p` in a payload list. -/
def occ (l : List ItemPayload) (p : ItemPayload) : Nat :=
  l.countP (fun q => q = p)

/-- Total occurrences of payload `p` across the response: the tea-room
list plus the item lists of every host and guest entry. -/
def countDetail (d : LessonDetail) (p : ItemPayload) : Nat :=
  occ d.chashitsu p + ((d.teishu.map (fun v => occ v.items p)).sum) +
    ((d.kyaku.map (fun v => occ v.items p)).sum)

/-! ### `create_role_entry` (POST /lessons/{id}/role-entries) -/

/-- The `Literal["teishu", "kyaku"]` type of `RoleEntryCreate.role`:
request validation admits exactly these two values. -/
inductive Role where
  | teishu
  | kyaku
deriving Repr, DecidableEq

/-- The string stored for a validated role value. -/
def Role.toStr : Role → String
  | .teishu => "teishu"
  | .kyaku => "kyaku"

/-- The POST /lessons/{id}/role-entries request body. -/
structure RoleEntryCreate where
  role : Role
  temaeName : Option String
  note : Option String
deriving Repr, DecidableEq

/-- The largest id in use in a table (0 when empty). -/
def maxId (key : α → Nat) (l : List α) : Nat :=
  l.foldr (fun x m => max (key x) m) 0

/-- AUTO_INCREMENT id for a new `role_entries` row. -/
def nextRoleEntryId (db : DB) : Nat := maxId (fun e => e.id) db.roleEntries + 1

/-- AUTO_INCREMENT id for a new `lesson_items` row. -/
def nextItemId (db : DB) : Nat := maxId (fun i => i.id) db.items + 1

/-- POST /lessons/{id}/role-entries: check the lesson exists and is
owned (404 otherwise), insert the entry, commit, then re-read the
highest-id row of the same lesson and role as confirmation.  `now` is
the database clock filling `created_at`. -/
def create_role_entry (db : DB) (lessonId : Nat) (body : RoleEntryCreate)
    (now : Nat) : DB × Except ApiError (Option RoleEntry) :=
  match db.lessons.find? (fun l => l.id = lessonId && l.userId = 1) with
  | none => (db, .error (.notFound "Lesson not found"))
  | some _ =>
    let newEntry : RoleEntry :=
      { id := nextRoleEntryId db
        lessonId := lessonId
        role := body.role.toStr
        temaeName := body.temaeName
        note := body.note
        createdAt := now }
    let db' := { db with roleEntries := db.roleEntries ++ [newEntry] }
    let reread := maxBy (fun e => e.id)
      (db'.roleEntries.filter
        (fun e => e.lessonId = lessonId && e.role = body.role.toStr))
    (db', .ok reread)

/-! ### `add_item_to_lesson` (POST /lessons/{id}/items) -/

/-- The `Literal["chashitsu", "teishu", "kyaku"]` type of the
compatibility `section` override in the request body. -/
inductive SectionLit where
  | chashitsu
  | teishu
  | kyaku
deriving Repr, DecidableEq

/-- The string carried by a validated section literal. -/
def SectionLit.toStr : SectionLit → String
  | .chashitsu => "chashitsu"
  | .teishu => "teishu"
  | .kyaku => "kyaku"

/-- `body.section or "chashitsu"` (every admitted literal is a non-empty
string, so Python truthiness is just presence). -/
def sectionOrDefault (s : Option SectionLit) : String :=
  match s with
  | some v => v.toStr
  | none => "chashitsu"

/-- The section inference of step 1 of `add_item_to_lesson`, given the
validated role entry's role: host role → host section, guest role →
guest section, any other (future) role → the override or tea-room. -/
def roleToSection (role : String) (override : Option SectionLit) : String :=
  if role = "teishu" then "teishu"
  else if role = "kyaku" then "kyaku"
  else sectionOrDefault override

/-- The POST /lessons/{id}/items request body. -/
structure ItemCreate where
  roleEntryId : Option Nat
  section_ : Option SectionLit
  itemType : String
  title : Option String
  mei : Option String
  maker : Option String
  note : Option String
deriving Repr, DecidableEq

/-- `search_text` generation: the fixed parts list, Python-truthiness
filtered (non-empty strings kept), space-joined. -/
def buildSearchText (inferredSection temaeName : String) (body : ItemCreate)
    (practiceName : String) : String :=
  let parts := [inferredSection, temaeName, body.itemType,
    body.title.getD "", body.mei.getD "", body.maker.getD "",
    body.note.getD "", practiceName]
  String.intercalate " " (parts.filter (fun s => s ≠ ""))

/-- The `lesson_items` row INSERTed by `add_item_to_lesson`. -/
def newItemOf (db : DB) (lessonId : Nat) (body : ItemCreate) (now : Nat)
    (inferredSection temaeName practiceName : String) : Item :=
  { id := nextItemId db
    lessonId := lessonId
    roleEntryId := body.roleEntryId
    section_ := inferredSection
    itemType := body.itemType
    title := body.title
    mei := body.mei
    maker := body.maker
    note := body.note
    searchText := buildSearchText inferredSection temaeName body
      practiceName
    createdAt := now }

/-- Steps 2–4 of `add_item_to_lesson`: generate `search_text`, INSERT
the row, commit, then re-read the highest-id row of the lesson as
confirmation. -/
def insertItemAndReread (db : DB) (lessonId : Nat) (body : ItemCreate)
    (now : Nat) (inferredSection temaeName practiceName : String) :
    DB × Except ApiError (Option Item) :=
  let newItem := newItemOf db lessonId body now inferredSection temaeName
    practiceName
  let db' := { db with items := db.items ++ [newItem] }
  let reread := maxBy (fun i => i.id)
    (db'.items.filter (fun i => i.lessonId = lessonId))
  (db', .ok reread)

/-- POST /lessons/{id}/items: check the owned lesson exists (404), then
when a `role_entry_id` is supplied check it belongs to this lesson (400)
and infer the section from its role (host → "teishu", guest → "kyaku",
any other role → override or "chashitsu"); without a `role_entry_id` the
section is the override or "chashitsu".  On every error path the
database is left unchanged (the transaction is rolled back before the
INSERT ever runs). -/
def add_item_to_lesson (db : DB) (lessonId : Nat) (body : ItemCreate)
    (now : Nat) : DB × Except ApiError (Option Item) :=
  match db.lessons.find? (fun l => l.id = lessonId && l.userId = 1) with
  | none => (db, .error (.notFound "Lesson not found"))
  | some lessonFound =>
    let practiceName := lessonFound.practiceName.getD ""
    match body.roleEntryId with
    | some rid =>
      match db.roleEntries.find?
          (fun e => e.id = rid && e.lessonId = lessonId) with
      | none => (db, .error (.validation "Invalid role_entry_id for this lesson"))
      | some entry =>
        let inferredSection := roleToSection entry.role body.section_
        let temaeName := entry.temaeName.getD ""
        insertItemAndReread db lessonId body now inferredSection temaeName
          practiceName
    | none =>
      insertItemAndReread db lessonId body now
        (sectionOrDefault body.section_) "" practiceName

/-! ### Analysis helpers for the grouping loop -/

/-- The payloads appended to the entry keyed `k` by the grouping loop:
the lesson's items referencing role entry `k`, in fetch order. -/
def itemsFor (k : Nat) (its : List Item) : List ItemPayload :=
  (its.filter (fun it => it.roleEntryId = some k)).map itemPayload

/-- Whether an item falls to the tea-room list of the grouping loop:
no role-entry reference, or a reference absent from the lookup. -/
def strayFilter (m : List (Nat × EntryOut)) (it : Item) : Bool :=
  match it.roleEntryId with
  | none => true
  | some rid => (dictGet m rid).isNone

/-- The payloads the grouping loop sends to the tea-room list. -/
def strays (m : List (Nat × EntryOut)) (its : List Item) :
    List ItemPayload :=
  (its.filter (strayFilter m)).map itemPayload

/-- The net effect of the grouping loop on one `entry_map` binding. -/
def updEntry (its : List Item) (kv : Nat × EntryOut) : Nat × EntryOut :=
  (kv.1, { kv.2 with items := kv.2.items ++ itemsFor kv.1 its })

/-! ### Concrete database states used as evaluation witnesses -/

/-- A lesson of the fixed user. -/
def exLesson : Lesson :=
  { id := 1, userId := 1, practicedOn := 20260110,
    practiceName := some "New Year Practice" }

/-- A host-role entry of `exLesson` with a procedure name. -/
def exHostEntry : RoleEntry :=
  { id := 1, lessonId := 1, role := "teishu", temaeName := some "usucha",
    note := none, createdAt := 5 }

/-- A role entry of `exLesson` whose role is neither host nor guest. -/
def exOddEntry : RoleEntry :=
  { id := 2, lessonId := 1, role := "hanto", temaeName := none,
    note := none, createdAt := 6 }

/-- An item of `exLesson` referencing the host entry. -/
def exHostItem : Item :=
  { id := 1, lessonId := 1, roleEntryId := some 1, section_ := "teishu",
    itemType := "chawan", title := none, mei := some "Yamazato",
    maker := none, note := none,
    searchText := "teishu usucha chawan Yamazato New Year Practice",
    createdAt := 7 }

/-- An item of `exLesson` referencing the non-host non-guest entry. -/
def exOddItem : Item :=
  { id := 2, lessonId := 1, roleEntryId := some 2, section_ := "chashitsu",
    itemType := "chasen", title := none, mei := none, maker := none,
    note := none, searchText := "chashitsu chasen", createdAt := 8 }

/-- An item of `exLesson` referencing a role entry that does not exist
(referential inconsistency). -/
def exOrphanItem : Item :=
  { id := 3, lessonId := 1, roleEntryId := some 99, section_ := "teishu",
    itemType := "natsume", title := none, mei := none, maker := none,
    note := none, searchText := "teishu natsume", createdAt := 9 }

/-- State with only well-roled entries and an orphaned item. -/
def exDB : DB :=
  { lessons := [exLesson]
    roleEntries := [exHostEntry]
    items := [exHostItem, exOrphanItem] }

/-- State holding a role entry with an unexpected role value, and an
item referencing it. -/
def exOddDB : DB :=
  { lessons := [exLesson]
    roleEntries := [exHostEntry, exOddEntry]
    items := [exHostItem, exOddItem] }

/-- An Add Item request referencing the host entry, with a conflicting
guest-section override. -/
def exItemCreate : ItemCreate :=
  { roleEntryId := some 1, section_ := some .kyaku, itemType := "chawan",
    title := none, mei := some "Yamazato", maker := none, note := none }

/-- An Add Item request with a dangling `role_entry_id`. -/
def exBadItemCreate : ItemCreate :=
  { roleEntryId := some 9999, section_ := none, itemType := "chawan",
    title := none, mei := none, maker := none, note := none }

/-- The host entry's tab value holding the host item, as rendered by
Get Lesson Detail on `exDB` and `exOddDB`. -/
def exHostEntryOut : EntryOut :=
  { roleEntryId := 1, role := "teishu", temaeName := some "usucha",
    note := none, createdAt := 5, items := [itemPayload exHostItem] }

/-- The Get Lesson Detail response for `exDB`, lesson 1: the orphaned
item lands in the tea-room list. -/
def exDetail : LessonDetail :=
  { lessonId := 1
    practicedOn := 20260110
    practiceName := some "New Year Practice"
    chashitsu := [itemPayload exOrphanItem]
    teishu := [exHostEntryOut]
    kyaku := [] }

/-- The Get Lesson Detail response for `exOddDB`, lesson 1: the item
referencing the "hanto" entry appears nowhere. -/
def exOddDetail : LessonDetail :=
  { lessonId := 1
    practicedOn := 20260110
    practiceName := some "New Year Practice"
    chashitsu := []
    teishu := [exHostEntryOut]
    kyaku := [] }

/-- The row Add Item inserts for `exItemCreate` on `exDB`. -/
def exAddedItem : Item :=
  { id := 4, lessonId := 1, roleEntryId := some 1, section_ := "teishu",
    itemType := "chawan", title := none, mei := some "Yamazato",
    maker := none, note := none,
    searchText := "teishu usucha chawan Yamazato New Year Practice",
    createdAt := 10 }

/-- `exDB` after that insert. -/
def exDBAfter : DB := { exDB with items := exDB.items ++ [exAddedItem] }

/-! ### Shared lemmas -/

theorem qLike_none : qLike none = none := rfl

theorem searchMatch_eq_true (p : SearchParams) (l : Lesson) (i : Item) :
    searchMatch p l i = true ↔
      userOk l = true ∧ yearOk p l = true ∧ practiceNameOk p l = true ∧
      itemTypeOk p i = true ∧ sectionOk p i = true ∧ queryOk p i = true := by
  simp only [searchMatch, Bool.and_eq_true]
  tauto

/-! ### C2: absent optional criteria are pass-throughs -/

/-- C2: for every search request and every optional criterion, the rows
matching the WHERE clause with the criterion cleared are a superset of
the rows matching with it present, and a cleared criterion's conjunct is
constantly true (absence is a pass-through, not a wildcard match). -/
theorem absent_criteria_pass_through (db : DB) (p : SearchParams) :
    (∀ r, r ∈ matchedRows db p →
      r ∈ matchedRows db { p with query := none }) ∧
    (∀ r, r ∈ matchedRows db p →
      r ∈ matchedRows db { p with year := none }) ∧
    (∀ r, r ∈ matchedRows db p →
      r ∈ matchedRows db { p with practiceName := none }) ∧
    (∀ r, r ∈ matchedRows db p →
      r ∈ matchedRows db { p with itemType := none }) ∧
    (∀ r, r ∈ matchedRows db p →
      r ∈ matchedRows db { p with section_ := none }) ∧
    (∀ l, yearOk { p with year := none } l = true) ∧
    (∀ l, practiceNameOk { p with practiceName := none } l = true) ∧
    (∀ i, itemTypeOk { p with itemType := none } i = true) ∧
    (∀ i, sectionOk { p with section_ := none } i = true) ∧
    (∀ i, queryOk { p with query := none } i = true) := by
  have step : ∀ (q : SearchParams) (r : Lesson × Item),
      r ∈ joinRows db → searchMatch q r.1 r.2 = true →
      r ∈ matchedRows db q := by
    intro q r h1 h2
    rw [matchedRows, List.mem_filter]
    exact ⟨h1, h2⟩
  have mem : ∀ r, r ∈ matchedRows db p → r ∈ joinRows db := by
    intro r hr
    rw [matchedRows, List.mem_filter] at hr
    exact hr.1
  have parts : ∀ r, r ∈ matchedRows db p →
      userOk r.1 = true ∧ yearOk p r.1 = true ∧
      practiceNameOk p r.1 = true ∧ itemTypeOk p r.2 = true ∧
      sectionOk p r.2 = true ∧ queryOk p r.2 = true := by
    intro r hr
    rw [matchedRows, List.mem_filter] at hr
    exact (searchMatch_eq_true _ _ _).mp hr.2
  refine ⟨?_, ?_, ?_, ?_, ?_, fun l => rfl, fun l => rfl, fun i => rfl,
    fun i => rfl, fun i => rfl⟩
  · intro r hr
    have h := parts r hr
    exact step _ r (mem r hr) ((searchMatch_eq_true _ _ _).mpr
      ⟨h.1, h.2.1, h.2.2.1, h.2.2.2.1, h.2.2.2.2.1, rfl⟩)
  · intro r hr
    have h := parts r hr
    exact step _ r (mem r hr) ((searchMatch_eq_true _ _ _).mpr
      ⟨h.1, rfl, h.2.2.1, h.2.2.2.1, h.2.2.2.2.1, h.2.2.2.2.2⟩)
  · intro r hr
    have h := parts r hr
    exact step _ r (mem r hr) ((searchMatch_eq_true _ _ _).mpr
      ⟨h.1, h.2.1, rfl, h.2.2.2.1, h.2.2.2.2.1, h.2.2.2.2.2⟩)
  · intro r hr
    have h := parts r hr
    exact step _ r (mem r hr) ((searchMatch_eq_true _ _ _).mpr
      ⟨h.1, h.2.1, h.2.2.1, rfl, h.2.2.2.2.1, h.2.2.2.2.2⟩)
  · intro r hr
    have h := parts r hr
    exact step _ r (mem r hr) ((searchMatch_eq_true _ _ _).mpr
      ⟨h.1, h.2.1, h.2.2.1, h.2.2.2.1, rfl, h.2.2.2.2.2⟩)

/-- Evaluation witness for C2 at a concrete state and request. -/
theorem absent_criteria_pass_through_witness :
    (exLesson, exHostItem) ∈ matchedRows exDB
      { query := none, year := some 2026, practiceName := none,
        itemType := some "chawan", section_ := none, limit := 50,
        offset := 0 } := by
  exact (absent_criteria_pass_through exDB
    { query := some "Yama", year := some 2026, practiceName := none,
      itemType := some "chawan", section_ := none, limit := 50,
      offset := 0 }).1 (exLesson, exHostItem) (by decide)

/-! ### C3: whitespace-only queries behave like an absent query -/

/-- C3: a free-text query that strips to the empty string (empty or
whitespace-only) yields exactly the same result rows as omitting the
query, for every database state and every other criterion. -/
theorem whitespace_query_same_results (db : DB) (p : SearchParams)
    (w : String) (hw : pyStrip w = "") :
    (search_items db { p with query := some w }).results =
      (search_items db { p with query := none }).results := by
  have hq : qLike ({ p with query := some w } : SearchParams).query =
      qLike ({ p with query := none } : SearchParams).query := by
    show qLike (some w) = qLike none
    rw [qLike_none]
    unfold qLike
    simp [hw]
  have hqOk : ∀ i : Item, queryOk { p with query := some w } i =
      queryOk { p with query := none } i := by
    intro i
    unfold queryOk
    rw [hq]
  have hmr : matchedRows db { p with query := some w } =
      matchedRows db { p with query := none } := by
    unfold matchedRows
    congr 1
    funext r
    unfold searchMatch
    rw [hqOk r.2]
    exact rfl
  show ((((matchedRows db { p with query := some w }).insertionSort
      joinedLater).drop p.offset).take p.limit).map mkSearchRow =
    ((((matchedRows db { p with query := none }).insertionSort
      joinedLater).drop p.offset).take p.limit).map mkSearchRow
  rw [hmr]

/-- Evaluation witness for C3: three spaces behave like no query. -/
theorem whitespace_query_same_results_witness :
    (search_items exDB
      { query := some "   ", year := none, practiceName := none,
        itemType := none, section_ := none, limit := 50,
        offset := 0 }).results =
    (search_items exDB
      { query := none, year := none, practiceName := none,
        itemType := none, section_ := none, limit := 50,
        offset := 0 }).results := by
  exact whitespace_query_same_results exDB
    { query := none, year := none, practiceName := none, itemType := none,
      section_ := none, limit := 50, offset := 0 } "   " (by decide)

/-! ### C9: the response count is the page length, not the total -/

/-- C9: the `count` field equals the number of rows in the returned
page, hence is at most `limit`; it is min(limit, matched − offset), not
the total number of matching rows. -/
theorem count_is_page_length (db : DB) (p : SearchParams) :
    (search_items db p).count = (search_items db p).results.length ∧
    (search_items db p).count ≤ p.limit ∧
    (search_items db p).count =
      min p.limit ((matchedRows db p).length - p.offset) := by
  have hlen : (search_items db p).count =
      min p.limit ((matchedRows db p).length - p.offset) := by
    show (((((matchedRows db p).insertionSort joinedLater).drop
      p.offset).take p.limit).map mkSearchRow).length = _
    rw [List.length_map, List.length_take, List.length_drop,
      (List.perm_insertionSort joinedLater (matchedRows db p)).length_eq]
  exact ⟨rfl, hlen ▸ Nat.min_le_left _ _, hlen⟩

/-! ### C6: a dangling role_entry_id is a validation error, no insert -/

/-- C6: when the lesson exists and is owned but the supplied
`role_entry_id` matches no role entry of that lesson, Add Item returns
the 400-equivalent validation error (not NotFound) and leaves the
database unchanged. -/
theorem dangling_role_entry_rejected (db : DB) (lid : Nat)
    (body : ItemCreate) (now : Nat) (l0 : Lesson) (rid : Nat)
    (hlesson : db.lessons.find? (fun l => l.id = lid && l.userId = 1) =
      some l0)
    (hrid : body.roleEntryId = some rid)
    (hmiss : db.roleEntries.find?
      (fun e => e.id = rid && e.lessonId = lid) = none) :
    add_item_to_lesson db lid body now =
      (db, .error (.validation "Invalid role_entry_id for this lesson")) ∧
    ∀ msg, (add_item_to_lesson db lid body now).2 ≠
      .error (.notFound msg) := by
  have h : add_item_to_lesson db lid body now =
      (db, .error (.validation "Invalid role_entry_id for this lesson")) := by
    simp only [add_item_to_lesson, hlesson, hrid, hmiss]
  refine ⟨h, fun msg => ?_⟩
  rw [h]
  simp

/-- Evaluation witness for C6 at a concrete state and request. -/
theorem dangling_role_entry_rejected_witness :
    add_item_to_lesson exDB 1 exBadItemCreate 10 =
      (exDB, .error (.validation "Invalid role_entry_id for this lesson")) ∧
    ∀ msg, (add_item_to_lesson exDB 1 exBadItemCreate 10).2 ≠
      .error (.notFound msg) := by
  exact dangling_role_entry_rejected exDB 1 exBadItemCreate 10 exLesson
    9999 (by decide) (by decide) (by decide)

/-! ### The re-read of the just-inserted row returns that row -/

theorem maxId_cons (key : α → Nat) (y : α) (t : List α) :
    maxId key (y :: t) = max (key y) (maxId key t) := rfl

theorem le_maxId (key : α → Nat) (l : List α) (x : α) (hx : x ∈ l) :
    key x ≤ maxId key l := by
  induction l with
  | nil => cases hx
  | cons y t ih =>
    rw [maxId_cons]
    rcases List.mem_cons.mp hx with h | h
    · rw [h]; exact Nat.le_max_left _ _
    · exact Nat.le_trans (ih h) (Nat.le_max_right _ _)

theorem maxBy_append_last (key : α → Nat) (l : List α) (x : α)
    (h : ∀ y ∈ l, key y < key x) : maxBy key (l ++ [x]) = some x := by
  induction l with
  | nil => rfl
  | cons y t ih =>
    have ht : maxBy key (t ++ [x]) = some x :=
      ih (fun z hz => h z (List.mem_cons_of_mem _ hz))
    show (match maxBy key (t ++ [x]) with
      | none => some y
      | some m => if key m < key y then some y else some m) = some x
    rw [ht]
    show (if key x < key y then some y else some x) = some x
    rw [if_neg (Nat.not_lt.mpr (Nat.le_of_lt (h y (List.mem_cons_self _ _))))]

theorem insertItemAndReread_spec (db : DB) (lid : Nat) (body : ItemCreate)
    (now : Nat) (s t pn : String) :
    insertItemAndReread db lid body now s t pn =
      ({ db with items := db.items ++ [newItemOf db lid body now s t pn] },
        .ok (some (newItemOf db lid body now s t pn))) := by
  have hreread : maxBy (fun i => i.id)
      ((db.items ++ [newItemOf db lid body now s t pn]).filter
        (fun i => i.lessonId = lid)) =
      some (newItemOf db lid body now s t pn) := by
    rw [List.filter_append]
    have hone : List.filter (fun i => i.lessonId = lid)
        [newItemOf db lid body now s t pn] =
        [newItemOf db lid body now s t pn] := by
      simp [newItemOf]
    rw [hone]
    refine maxBy_append_last _ _ _ (fun y hy => ?_)
    have hy2 : y ∈ db.items := List.mem_of_mem_filter hy
    have hle : y.id ≤ maxId (fun i => i.id) db.items :=
      le_maxId (fun i => i.id) db.items y hy2
    show y.id < (newItemOf db lid body now s t pn).id
    have hid : (newItemOf db lid body now s t pn).id =
        maxId (fun i => i.id) db.items + 1 := rfl
    omega
  show ({ db with items := db.items ++ [newItemOf db lid body now s t pn] },
    Except.ok (maxBy (fun i => i.id)
      ((db.items ++ [newItemOf db lid body now s t pn]).filter
        (fun i => i.lessonId = lid)))) = _
  rw [hreread]

/-- Success shape of Add Item: the lesson was found, the returned row is
the inserted row, and the inserted row is `newItemOf` with the section,
temae name and practice name dictated by the request's branch. -/
theorem add_item_success_shape (db : DB) (lid : Nat) (body : ItemCreate)
    (now : Nat) (db' : DB) (it : Item)
    (h : add_item_to_lesson db lid body now = (db', .ok (some it))) :
    ∃ lesson, db.lessons.find? (fun l => l.id = lid && l.userId = 1) =
        some lesson ∧
      db' = { db with items := db.items ++ [it] } ∧
      ((body.roleEntryId = none ∧
          it = newItemOf db lid body now (sectionOrDefault body.section_)
            "" (lesson.practiceName.getD "")) ∨
        (∃ rid e, body.roleEntryId = some rid ∧
          db.roleEntries.find?
            (fun x => x.id = rid && x.lessonId = lid) = some e ∧
          it = newItemOf db lid body now
            (roleToSection e.role body.section_)
            (e.temaeName.getD "") (lesson.practiceName.getD ""))) := by
  cases hfind : db.lessons.find? (fun l => l.id = lid && l.userId = 1) with
  | none =>
    simp only [add_item_to_lesson, hfind] at h
    exact absurd h (by simp)
  | some lesson =>
    refine ⟨lesson, rfl, ?_⟩
    cases hrid : body.roleEntryId with
    | none =>
      simp only [add_item_to_lesson, hfind, hrid,
        insertItemAndReread_spec, Prod.mk.injEq, Except.ok.injEq,
        Option.some.injEq] at h
      obtain ⟨h1, h2⟩ := h
      rw [← h1, ← h2]
      exact ⟨rfl, Or.inl ⟨rfl, rfl⟩⟩
    | some rid =>
      cases hfe : db.roleEntries.find?
          (fun x => x.id = rid && x.lessonId = lid) with
      | none =>
        simp only [add_item_to_lesson, hfind, hrid, hfe] at h
        exact absurd h (by simp)
      | some e =>
        simp only [add_item_to_lesson, hfind, hrid, hfe,
          insertItemAndReread_spec, Prod.mk.injEq, Except.ok.injEq,
          Option.some.injEq] at h
        obtain ⟨h1, h2⟩ := h
        rw [← h1, ← h2]
        exact ⟨rfl, Or.inr ⟨rid, e, rfl, hfe, rfl⟩⟩

/-! ### C4: the search_text formula -/

/-- C4: on a successful Add Item, the returned row is stored, and its
`search_text` is the space-joined concatenation of the non-empty values
among (in this order): inferred section, the referenced role entry's
procedure name (empty when no entry or no name), item-type, title,
canonical name, maker, note, and the lesson's practice name. -/
theorem search_text_formula (db : DB) (lid : Nat) (body : ItemCreate)
    (now : Nat) (db' : DB) (it : Item)
    (h : add_item_to_lesson db lid body now = (db', .ok (some it))) :
    it ∈ db'.items ∧
    it.searchText = String.intercalate " "
      (([it.section_,
         (match body.roleEntryId with
          | none => ""
          | some rid =>
            match db.roleEntries.find?
                (fun e => e.id = rid && e.lessonId = lid) with
            | none => ""
            | some e => e.temaeName.getD ""),
         body.itemType, body.title.getD "", body.mei.getD "",
         body.maker.getD "", body.note.getD "",
         (match db.lessons.find? (fun l => l.id = lid && l.userId = 1) with
          | none => ""
          | some l => l.practiceName.getD "")]).filter
        (fun s => s ≠ "")) := by
  obtain ⟨lesson, hfind, hdb, hbr⟩ := add_item_success_shape db lid body
    now db' it h
  have hmem : it ∈ db'.items := by
    rw [hdb]
    exact List.mem_append_right _ (List.mem_singleton_self _)
  refine ⟨hmem, ?_⟩
  rcases hbr with ⟨hrid, hit⟩ | ⟨rid, e, hrid, hfe, hit⟩
  · subst hit
    simp only [hrid, hfind]
    rfl
  · subst hit
    simp only [hrid, hfind, hfe]
    rfl

/-- Evaluation witness for C4: the concrete inserted row's search text. -/
theorem search_text_formula_witness :
    exAddedItem.searchText =
      "teishu usucha chawan Yamazato New Year Practice" := by
  have h := search_text_formula exDB 1 exItemCreate 10 exDBAfter
    exAddedItem (by rfl)
  rw [h.2]
  decide

/-! ### C5: role-derived section wins over the override -/

/-- C5: on a successful Add Item, the stored-and-returned section is
"teishu" when the resolved role entry's role is host and "kyaku" when it
is guest — regardless of the request's section override — and the
override (default "chashitsu") only when the role is any other value or
no role entry was referenced. -/
theorem role_determines_section (db : DB) (lid : Nat) (body : ItemCreate)
    (now : Nat) (db' : DB) (it : Item)
    (h : add_item_to_lesson db lid body now = (db', .ok (some it))) :
    it ∈ db'.items ∧
    (∀ rid e, body.roleEntryId = some rid →
      db.roleEntries.find? (fun x => x.id = rid && x.lessonId = lid) =
        some e →
      ((e.role = "teishu" → it.section_ = "teishu") ∧
       (e.role = "kyaku" → it.section_ = "kyaku") ∧
       (e.role ≠ "teishu" → e.role ≠ "kyaku" →
         it.section_ = sectionOrDefault body.section_))) ∧
    (body.roleEntryId = none →
      it.section_ = sectionOrDefault body.section_) := by
  obtain ⟨lesson, hfind, hdb, hbr⟩ := add_item_success_shape db lid body
    now db' it h
  have hmem : it ∈ db'.items := by
    rw [hdb]
    exact List.mem_append_right _ (List.mem_singleton_self _)
  refine ⟨hmem, ?_, ?_⟩
  · intro rid e hrid hfe
    rcases hbr with ⟨hnone, _⟩ | ⟨rid2, e2, hrid2, hfe2, hit⟩
    · rw [hnone] at hrid; cases hrid
    · rw [hrid2] at hrid
      have hr : rid2 = rid := Option.some_inj.mp hrid
      subst hr
      rw [hfe] at hfe2
      have he : e = e2 := Option.some_inj.mp hfe2
      subst he
      have hsec : it.section_ = roleToSection e.role body.section_ := by
        rw [hit]; rfl
      refine ⟨?_, ?_, ?_⟩
      · intro hrole
        rw [hsec, hrole]; rfl
      · intro hrole
        rw [hsec, hrole]; rfl
      · intro h1 h2
        rw [hsec, roleToSection, if_neg h1, if_neg h2]
  · intro hnone
    rcases hbr with ⟨_, hit⟩ | ⟨rid2, e2, hrid2, _, _⟩
    · rw [hit]; rfl
    · rw [hnone] at hrid2; cases hrid2

/-- Evaluation witness for C5: the host-entry reference forces section
"teishu" even though the request carries a "kyaku" override. -/
theorem role_determines_section_witness :
    exAddedItem.section_ = "teishu" := by
  have h := role_determines_section exDB 1 exItemCreate 10 exDBAfter
    exAddedItem (by rfl)
  exact (h.2.1 1 exHostEntry (by decide) (by decide)).1 (by decide)

/-! ### C8: the lesson list -/

instance : IsTotal Lesson lessonLater :=
  ⟨fun a b => by unfold lessonLater; omega⟩

instance : IsTrans Lesson lessonLater :=
  ⟨fun a b c hab hbc => by unfold lessonLater at *; omega⟩

theorem maxBy_cons_ne_none (key : α → Nat) (x : α) (t : List α) :
    maxBy key (x :: t) ≠ none := by
  show (match maxBy key t with
    | none => some x
    | some m => if key m < key x then some x else some m) ≠ none
  cases maxBy key t with
  | none => simp
  | some m =>
    show (if key m < key x then some x else some m) ≠ none
    split <;> simp

theorem maxBy_eq_none_iff (key : α → Nat) (l : List α) :
    maxBy key l = none ↔ l = [] := by
  cases l with
  | nil => exact ⟨fun _ => rfl, fun _ => rfl⟩
  | cons x t =>
    exact ⟨fun h => absurd h (maxBy_cons_ne_none key x t),
      fun h => by cases h⟩

theorem maxBy_mem (key : α → Nat) (l : List α) (m : α)
    (h : maxBy key l = some m) : m ∈ l := by
  induction l with
  | nil => cases h
  | cons x t ih =>
    have h2 : (match maxBy key t with
      | none => some x
      | some m => if key m < key x then some x else some m) = some m := h
    cases hm : maxBy key t with
    | none =>
      simp only [hm] at h2
      obtain rfl : x = m := Option.some_inj.mp h2
      exact List.mem_cons_self _ _
    | some m2 =>
      simp only [hm] at h2
      by_cases hlt : key m2 < key x
      · rw [if_pos hlt] at h2
        obtain rfl : x = m := Option.some_inj.mp h2
        exact List.mem_cons_self _ _
      · rw [if_neg hlt] at h2
        obtain rfl : m2 = m := Option.some_inj.mp h2
        exact List.mem_cons_of_mem _ (ih hm)

theorem maxBy_is_max (key : α → Nat) (l : List α) :
    ∀ m, maxBy key l = some m → ∀ y ∈ l, key y ≤ key m := by
  induction l with
  | nil => intro m h; cases h
  | cons x t ih =>
    intro m h
    have h2 : (match maxBy key t with
      | none => some x
      | some m => if key m < key x then some x else some m) = some m := h
    intro y hy
    cases hm : maxBy key t with
    | none =>
      simp only [hm] at h2
      obtain rfl : x = m := Option.some_inj.mp h2
      rcases List.mem_cons.mp hy with rfl | hy2
      · exact Nat.le_refl _
      · rw [(maxBy_eq_none_iff key t).mp hm] at hy2
        cases hy2
    | some m2 =>
      simp only [hm] at h2
      by_cases hlt : key m2 < key x
      · rw [if_pos hlt] at h2
        obtain rfl : x = m := Option.some_inj.mp h2
        rcases List.mem_cons.mp hy with rfl | hy2
        · exact Nat.le_refl _
        · exact Nat.le_of_lt (Nat.lt_of_le_of_lt (ih m2 hm y hy2) hlt)
      · rw [if_neg hlt] at h2
        obtain rfl : m2 = m := Option.some_inj.mp h2
        rcases List.mem_cons.mp hy with rfl | hy2
        · exact Nat.not_lt.mp hlt
        · exact ih _ hm y hy2

theorem maxBy_of_max_mem (key : α → Nat) (l : List α) (e : α)
    (he : e ∈ l) (hmax : ∀ y ∈ l, key y ≤ key e)
    (hinj : ∀ x ∈ l, ∀ y ∈ l, key x = key y → x = y) :
    maxBy key l = some e := by
  cases hm : maxBy key l with
  | none =>
    rw [maxBy_eq_none_iff] at hm
    subst hm
    cases he
  | some m =>
    have h1 := maxBy_mem key l m hm
    have h2 := maxBy_is_max key l m hm e he
    have h3 := hmax m h1
    rw [hinj m h1 e he (Nat.le_antisymm h3 h2)]

/-- Membership in the temae-subquery candidate set, unfolded. -/
theorem mem_temae_cand (entries : List RoleEntry) (lid : Nat)
    (role : String) (e : RoleEntry) :
    e ∈ entries.filter (fun e => e.lessonId = lid && e.role = role &&
        e.temaeName.isSome) ↔
      e ∈ entries ∧ e.lessonId = lid ∧ e.role = role ∧
        e.temaeName ≠ none := by
  rw [List.mem_filter]
  simp [Bool.and_eq_true, Option.isSome_iff_ne_none, and_assoc]

theorem latestTemae_some_iff (entries : List RoleEntry) (lid : Nat)
    (role : String) (t : String)
    (hnd : (entries.map (fun e => e.id)).Nodup) :
    latestTemae entries lid role = some t ↔
      ∃ e, e ∈ entries ∧ e.lessonId = lid ∧ e.role = role ∧
        e.temaeName = some t ∧
        ∀ e2 ∈ entries, e2.lessonId = lid → e2.role = role →
          e2.temaeName ≠ none → e2.id ≤ e.id := by
  unfold latestTemae
  constructor
  · intro h
    rw [Option.bind_eq_some] at h
    obtain ⟨m, hm, hmt⟩ := h
    have hmem := (mem_temae_cand entries lid role m).mp (maxBy_mem _ _ _ hm)
    refine ⟨m, hmem.1, hmem.2.1, hmem.2.2.1, hmt, ?_⟩
    intro e2 he2 h1 h2 h3
    exact maxBy_is_max _ _ _ hm e2
      ((mem_temae_cand entries lid role e2).mpr ⟨he2, h1, h2, h3⟩)
  · intro ⟨e, he, h1, h2, h3, hmax⟩
    have hcand : e ∈ entries.filter (fun e => e.lessonId = lid &&
        e.role = role && e.temaeName.isSome) :=
      (mem_temae_cand entries lid role e).mpr
        ⟨he, h1, h2, by rw [h3]; exact Option.some_ne_none t⟩
    have hinj : ∀ x ∈ entries.filter (fun e => e.lessonId = lid &&
        e.role = role && e.temaeName.isSome),
        ∀ y ∈ entries.filter (fun e => e.lessonId = lid &&
          e.role = role && e.temaeName.isSome),
        x.id = y.id → x = y := by
      intro x hx y hy hxy
      exact List.inj_on_of_nodup_map hnd
        (List.mem_of_mem_filter hx) (List.mem_of_mem_filter hy) hxy
    have hmx : maxBy (fun e => e.id) (entries.filter
        (fun e => e.lessonId = lid && e.role = role &&
          e.temaeName.isSome)) = some e := by
      refine maxBy_of_max_mem _ _ _ hcand ?_ hinj
      intro y hy
      have hymem := (mem_temae_cand entries lid role y).mp hy
      exact hmax y hymem.1 hymem.2.1 hymem.2.2.1 hymem.2.2.2
    rw [hmx]
    exact h3

theorem latestTemae_none_iff (entries : List RoleEntry) (lid : Nat)
    (role : String) :
    latestTemae entries lid role = none ↔
      ∀ e ∈ entries, ¬(e.lessonId = lid ∧ e.role = role ∧
        e.temaeName ≠ none) := by
  unfold latestTemae
  constructor
  · intro h e he hcond
    have hcand := (mem_temae_cand entries lid role e).mpr
      ⟨he, hcond.1, hcond.2.1, hcond.2.2⟩
    cases hm : maxBy (fun e => e.id) (entries.filter
        (fun e => e.lessonId = lid && e.role = role &&
          e.temaeName.isSome)) with
    | none =>
      rw [maxBy_eq_none_iff] at hm
      rw [hm] at hcand
      cases hcand
    | some m =>
      rw [hm] at h
      have hmem := (mem_temae_cand entries lid role m).mp
        (maxBy_mem _ _ _ hm)
      obtain ⟨v, hv⟩ := Option.ne_none_iff_exists'.mp hmem.2.2.2
      show False
      rw [show (some m).bind (fun e => e.temaeName) = m.temaeName from rfl,
        hv] at h
      cases h
  · intro h
    have hnil : entries.filter (fun e => e.lessonId = lid &&
        e.role = role && e.temaeName.isSome) = [] := by
      rw [List.filter_eq_nil_iff]
      intro e he
      intro hb
      have hmem := (mem_temae_cand entries lid role e).mp
        (List.mem_filter.mpr ⟨he, hb⟩)
      exact h e he ⟨hmem.2.1, hmem.2.2.1, hmem.2.2.2⟩
    rw [hnil]
    rfl

/-- C8: List Lessons returns the fixed user's lessons ordered by
practice date then id (both descending), capped at 200 rows; every row
shown comes from an owned lesson and (when at most 200 owned lessons
exist) every owned lesson is shown; and a row's host (resp. guest)
procedure-name field is the name of the highest-id host (resp. guest)
entry of that lesson having a name, or absent when none exists. -/
theorem list_lessons_spec (db : DB)
    (hnd : (db.roleEntries.map (fun e => e.id)).Nodup) :
    (list_lessons db).length ≤ 200 ∧
    List.Sorted rowLater (list_lessons db) ∧
    (∀ row ∈ list_lessons db, ∃ l, l ∈ db.lessons ∧ l.userId = 1 ∧
      row = lessonRow db l) ∧
    ((db.lessons.filter (fun l => l.userId = 1)).length ≤ 200 →
      ∀ l ∈ db.lessons, l.userId = 1 → lessonRow db l ∈ list_lessons db) ∧
    (∀ lid role t, latestTemae db.roleEntries lid role = some t ↔
      ∃ e, e ∈ db.roleEntries ∧ e.lessonId = lid ∧ e.role = role ∧
        e.temaeName = some t ∧
        ∀ e2 ∈ db.roleEntries, e2.lessonId = lid → e2.role = role →
          e2.temaeName ≠ none → e2.id ≤ e.id) ∧
    (∀ lid role, latestTemae db.roleEntries lid role = none ↔
      ∀ e ∈ db.roleEntries, ¬(e.lessonId = lid ∧ e.role = role ∧
        e.temaeName ≠ none)) := by
  refine ⟨?_, ?_, ?_, ?_,
    fun lid role t => latestTemae_some_iff db.roleEntries lid role t hnd,
    fun lid role => latestTemae_none_iff db.roleEntries lid role⟩
  · show ((((db.lessons.filter (fun l => l.userId = 1)).insertionSort
      lessonLater).take 200).map (lessonRow db)).length ≤ 200
    rw [List.length_map, List.length_take]
    exact Nat.min_le_left _ _
  · have hs : List.Sorted lessonLater
        (((db.lessons.filter (fun l => l.userId = 1)).insertionSort
          lessonLater).take 200) :=
      (List.sorted_insertionSort lessonLater _).sublist
        (List.take_sublist _ _)
    show List.Pairwise rowLater ((((db.lessons.filter
      (fun l => l.userId = 1)).insertionSort lessonLater).take
        200).map (lessonRow db))
    rw [List.pairwise_map]
    exact hs.imp (fun h => h)
  · intro row hrow
    obtain ⟨l, hl, hrow2⟩ := List.mem_map.mp hrow
    have hl2 : l ∈ (db.lessons.filter
        (fun l => l.userId = 1)).insertionSort lessonLater :=
      (List.take_sublist _ _).mem hl
    have hl3 : l ∈ db.lessons.filter (fun l => l.userId = 1) :=
      (List.perm_insertionSort lessonLater _).mem_iff.mp hl2
    have hl4 := List.mem_filter.mp hl3
    exact ⟨l, hl4.1, by simpa using hl4.2, hrow2.symm⟩
  · intro hcap l hl hu
    have hlf : l ∈ db.lessons.filter (fun l => l.userId = 1) :=
      List.mem_filter.mpr ⟨hl, by simpa using hu⟩
    have hlen : ((db.lessons.filter (fun l => l.userId = 1)).insertionSort
        lessonLater).length ≤ 200 := by
      rw [(List.perm_insertionSort lessonLater _).length_eq]
      exact hcap
    have hltake : ((db.lessons.filter
        (fun l => l.userId = 1)).insertionSort lessonLater).take 200 =
        (db.lessons.filter (fun l => l.userId = 1)).insertionSort
          lessonLater := List.take_of_length_le hlen
    show lessonRow db l ∈ (((db.lessons.filter
      (fun l => l.userId = 1)).insertionSort lessonLater).take
        200).map (lessonRow db)
    rw [hltake]
    exact List.mem_map_of_mem (lessonRow db)
      ((List.perm_insertionSort lessonLater _).mem_iff.mpr hlf)

/-- Evaluation witness for C8 at a concrete state. -/
theorem list_lessons_spec_witness :
    list_lessons exDB = [lessonRow exDB exLesson] ∧
    (lessonRow exDB exLesson).teishuTemaeName = some "usucha" := by
  have h := list_lessons_spec exDB (by decide)
  refine ⟨by decide, ?_⟩
  exact ((h.2.2.2.2.1 1 "teishu" "usucha").mpr
    ⟨exHostEntry, by decide, by decide, by decide, by decide,
      by decide⟩)

/-! ### Dictionary lemmas for the grouping loop -/

theorem dictGet_none_iff_keys (m : List (Nat × EntryOut)) (k : Nat) :
    dictGet m k = none ↔ k ∉ m.map Prod.fst := by
  unfold dictGet
  rw [Option.map_eq_none', List.find?_eq_none]
  simp only [decide_eq_true_eq, List.mem_map]
  constructor
  · intro h ⟨kv, hkv, he⟩
    exact h kv hkv he
  · intro h kv hkv he
    exact h ⟨kv, hkv, he⟩

theorem dictGet_eq_some_shape (m : List (Nat × EntryOut)) (k : Nat)
    (v : EntryOut) (h : dictGet m k = some v) :
    ∃ kv, kv ∈ m ∧ kv.1 = k ∧ kv.2 = v := by
  unfold dictGet at h
  rw [Option.map_eq_some'] at h
  obtain ⟨kv, hf, hv⟩ := h
  exact ⟨kv, List.mem_of_find?_eq_some hf,
    by simpa using List.find?_some hf, hv⟩

theorem dictAppendItem_keys (m : List (Nat × EntryOut)) (k : Nat)
    (p : ItemPayload) :
    (dictAppendItem m k p).map Prod.fst = m.map Prod.fst := by
  unfold dictAppendItem
  rw [List.map_map]
  apply List.map_congr_left
  intro kv _
  by_cases h : kv.1 = k <;> simp [h]

theorem dictGet_none_dictAppendItem (m : List (Nat × EntryOut)) (k : Nat)
    (p : ItemPayload) (x : Nat) :
    dictGet (dictAppendItem m k p) x = none ↔ dictGet m x = none := by
  rw [dictGet_none_iff_keys, dictGet_none_iff_keys, dictAppendItem_keys]

theorem strayFilter_dictAppendItem (m : List (Nat × EntryOut)) (k : Nat)
    (p : ItemPayload) (it : Item) :
    strayFilter (dictAppendItem m k p) it = strayFilter m it := by
  unfold strayFilter
  cases it.roleEntryId with
  | none => rfl
  | some r =>
    show (dictGet (dictAppendItem m k p) r).isNone = (dictGet m r).isNone
    cases hg : dictGet m r with
    | none =>
      rw [(dictGet_none_dictAppendItem m k p r).mpr hg]
    | some v =>
      cases hg2 : dictGet (dictAppendItem m k p) r with
      | none =>
        have := (dictGet_none_dictAppendItem m k p r).mp hg2
        rw [this] at hg
        cases hg
      | some w => rfl

theorem mem_keys_dictInsert (m : List (Nat × EntryOut)) (k : Nat)
    (v : EntryOut) (x : Nat) :
    x ∈ (dictInsert m k v).map Prod.fst ↔
      x ∈ m.map Prod.fst ∨ x = k := by
  induction m with
  | nil => simp [dictInsert]
  | cons kv t ih =>
    show x ∈ ((if kv.1 = k then (k, v) :: t
      else kv :: dictInsert t k v).map Prod.fst) ↔ _
    by_cases hk : kv.1 = k
    · rw [if_pos hk]
      simp only [List.map_cons, List.mem_cons, hk]
      tauto
    · rw [if_neg hk]
      simp only [List.map_cons, List.mem_cons, ih]
      tauto

theorem nodup_keys_dictInsert (m : List (Nat × EntryOut)) (k : Nat)
    (v : EntryOut) (h : (m.map Prod.fst).Nodup) :
    ((dictInsert m k v).map Prod.fst).Nodup := by
  induction m with
  | nil => simp [dictInsert]
  | cons kv t ih =>
    rw [List.map_cons, List.nodup_cons] at h
    show ((if kv.1 = k then (k, v) :: t
      else kv :: dictInsert t k v).map Prod.fst).Nodup
    by_cases hk : kv.1 = k
    · rw [if_pos hk]
      rw [List.map_cons, List.nodup_cons]
      exact ⟨hk ▸ h.1, h.2⟩
    · rw [if_neg hk]
      rw [List.map_cons, List.nodup_cons]
      refine ⟨?_, ih h.2⟩
      intro hmem
      rcases (mem_keys_dictInsert t k v kv.1).mp hmem with h2 | h2
      · exact h.1 h2
      · exact hk h2

theorem mem_dictInsert_shape (m : List (Nat × EntryOut)) (k : Nat)
    (v : EntryOut) (kv : Nat × EntryOut) (h : kv ∈ dictInsert m k v) :
    kv = (k, v) ∨ kv ∈ m := by
  induction m with
  | nil =>
    rcases List.mem_singleton.mp h with rfl
    exact Or.inl rfl
  | cons kv2 t ih =>
    have h2 : kv ∈ (if kv2.1 = k then (k, v) :: t
        else kv2 :: dictInsert t k v) := h
    by_cases hk : kv2.1 = k
    · rw [if_pos hk] at h2
      rcases List.mem_cons.mp h2 with rfl | h3
      · exact Or.inl rfl
      · exact Or.inr (List.mem_cons_of_mem _ h3)
    · rw [if_neg hk] at h2
      rcases List.mem_cons.mp h2 with rfl | h3
      · exact Or.inr (List.mem_cons_self _ _)
      · rcases ih h3 with h4 | h4
        · exact Or.inl h4
        · exact Or.inr (List.mem_cons_of_mem _ h4)

theorem nodup_keys_foldInsert (entries : List RoleEntry) :
    ∀ m0 : List (Nat × EntryOut), (m0.map Prod.fst).Nodup →
      (((entries.foldl (fun m e => dictInsert m e.id (entryOut e))
        m0).map Prod.fst).Nodup) := by
  induction entries with
  | nil => exact fun m0 h => h
  | cons e t ih =>
    exact fun m0 h => ih _ (nodup_keys_dictInsert m0 e.id (entryOut e) h)

theorem nodup_keys_buildEntryMap (entries : List RoleEntry) :
    ((buildEntryMap entries).map Prod.fst).Nodup :=
  nodup_keys_foldInsert entries [] (by simp)

theorem mem_foldInsert_shape (entries : List RoleEntry) :
    ∀ (m0 : List (Nat × EntryOut)) (kv : Nat × EntryOut),
      kv ∈ entries.foldl (fun m e => dictInsert m e.id (entryOut e)) m0 →
      kv ∈ m0 ∨ ∃ e, e ∈ entries ∧ kv = (e.id, entryOut e) := by
  induction entries with
  | nil => exact fun m0 kv h => Or.inl h
  | cons e t ih =>
    intro m0 kv h
    rcases ih _ kv h with h2 | ⟨e2, he2, hkv⟩
    · rcases mem_dictInsert_shape m0 e.id (entryOut e) kv h2 with h3 | h3
      · exact Or.inr ⟨e, List.mem_cons_self _ _, h3⟩
      · exact Or.inl h3
    · exact Or.inr ⟨e2, List.mem_cons_of_mem _ he2, hkv⟩

theorem mem_buildEntryMap_shape (entries : List RoleEntry)
    (kv : Nat × EntryOut) (h : kv ∈ buildEntryMap entries) :
    ∃ e, e ∈ entries ∧ kv = (e.id, entryOut e) := by
  rcases mem_foldInsert_shape entries [] kv h with h2 | h2
  · cases h2
  · exact h2

theorem keys_mono_foldInsert (t : List RoleEntry) :
    ∀ (m0 : List (Nat × EntryOut)) (x : Nat), x ∈ m0.map Prod.fst →
      x ∈ (t.foldl (fun m e => dictInsert m e.id (entryOut e))
        m0).map Prod.fst := by
  induction t with
  | nil => exact fun m0 x h => h
  | cons e t2 ih =>
    intro m0 x h
    exact ih _ x ((mem_keys_dictInsert m0 e.id (entryOut e) x).mpr
      (Or.inl h))

theorem entry_id_in_foldInsert (entries : List RoleEntry) :
    ∀ (m0 : List (Nat × EntryOut)) (e : RoleEntry), e ∈ entries →
      e.id ∈ (entries.foldl (fun m e => dictInsert m e.id (entryOut e))
        m0).map Prod.fst := by
  induction entries with
  | nil => intro m0 e he; cases he
  | cons e2 t ih =>
    intro m0 e he
    rcases List.mem_cons.mp he with rfl | he2
    · exact keys_mono_foldInsert t _ e.id
        ((mem_keys_dictInsert m0 e.id (entryOut e) e.id).mpr (Or.inr rfl))
    · exact ih _ e he2

theorem entry_id_in_buildEntryMap (entries : List RoleEntry)
    (e : RoleEntry) (he : e ∈ entries) :
    e.id ∈ (buildEntryMap entries).map Prod.fst :=
  entry_id_in_foldInsert entries [] e he

theorem keys_buildEntryMap_sub (entries : List RoleEntry) (x : Nat)
    (h : x ∈ (buildEntryMap entries).map Prod.fst) :
    ∃ e, e ∈ entries ∧ e.id = x := by
  obtain ⟨kv, hkv, hx⟩ := List.mem_map.mp h
  obtain ⟨e, he, hkve⟩ := mem_buildEntryMap_shape entries kv hkv
  exact ⟨e, he, by rw [hkve] at hx; exact hx⟩

/-! ### Characterization of the grouping loop -/

theorem itemsFor_cons_none (k : Nat) (it : Item) (rest : List Item)
    (h : it.roleEntryId = none) :
    itemsFor k (it :: rest) = itemsFor k rest := by
  unfold itemsFor
  rw [List.filter_cons_of_neg]
  simp [h]

theorem itemsFor_cons_other (k : Nat) (it : Item) (rest : List Item)
    (rid : Nat) (h : it.roleEntryId = some rid) (hne : rid ≠ k) :
    itemsFor k (it :: rest) = itemsFor k rest := by
  unfold itemsFor
  rw [List.filter_cons_of_neg]
  simp [h, hne]

theorem itemsFor_cons_self (k : Nat) (it : Item) (rest : List Item)
    (h : it.roleEntryId = some k) :
    itemsFor k (it :: rest) = itemPayload it :: itemsFor k rest := by
  unfold itemsFor
  rw [List.filter_cons_of_pos]
  · rfl
  · simp [h]

theorem strays_cons_pos (m : List (Nat × EntryOut)) (it : Item)
    (rest : List Item) (h : strayFilter m it = true) :
    strays m (it :: rest) = itemPayload it :: strays m rest := by
  unfold strays
  rw [List.filter_cons_of_pos h]
  rfl

theorem strays_cons_neg (m : List (Nat × EntryOut)) (it : Item)
    (rest : List Item) (h : ¬strayFilter m it = true) :
    strays m (it :: rest) = strays m rest := by
  unfold strays
  rw [List.filter_cons_of_neg h]

theorem updEntry_nil (kv : Nat × EntryOut) : updEntry [] kv = kv := by
  unfold updEntry
  show (kv.1, { kv.2 with items := kv.2.items ++ [] }) = kv
  rw [List.append_nil]

theorem groupItems_charact (its : List Item) :
    ∀ (cha : List ItemPayload) (m : List (Nat × EntryOut)),
      groupItems its (cha, m) =
        (cha ++ strays m its, m.map (updEntry its)) := by
  induction its with
  | nil =>
    intro cha m
    show (cha, m) = (cha ++ strays m [], m.map (updEntry []))
    rw [show strays m [] = [] from rfl, List.append_nil,
      (List.map_congr_left (fun kv _ => updEntry_nil kv)).trans
        (List.map_id m)]
  | cons it rest ih =>
    intro cha m
    show groupItems rest (groupStep (cha, m) it) = _
    cases hrid : it.roleEntryId with
    | none =>
      have hstep : groupStep (cha, m) it = (cha ++ [itemPayload it], m) := by
        simp only [groupStep, hrid]
      rw [hstep, ih]
      have hstray : strayFilter m it = true := by simp [strayFilter, hrid]
      rw [strays_cons_pos m it rest hstray]
      have hupd : m.map (updEntry rest) = m.map (updEntry (it :: rest)) :=
        List.map_congr_left (fun kv _ => by
          unfold updEntry
          rw [itemsFor_cons_none kv.1 it rest hrid])
      rw [hupd, List.append_assoc, List.singleton_append]
    | some rid =>
      cases hget : dictGet m rid with
      | none =>
        have hstep : groupStep (cha, m) it =
            (cha ++ [itemPayload it], m) := by
          simp only [groupStep, hrid, hget]
        rw [hstep, ih]
        have hstray : strayFilter m it = true := by
          simp [strayFilter, hrid, hget]
        rw [strays_cons_pos m it rest hstray]
        have hkeys : ∀ kv ∈ m, kv.1 ≠ rid := by
          intro kv hkv he
          exact ((dictGet_none_iff_keys m rid).mp hget)
            (List.mem_map.mpr ⟨kv, hkv, he⟩)
        have hupd : m.map (updEntry rest) =
            m.map (updEntry (it :: rest)) :=
          List.map_congr_left (fun kv hkv => by
            unfold updEntry
            rw [itemsFor_cons_other kv.1 it rest rid hrid
              (fun he => hkeys kv hkv he.symm)])
        rw [hupd, List.append_assoc, List.singleton_append]
      | some v =>
        have hstep : groupStep (cha, m) it =
            (cha, dictAppendItem m rid (itemPayload it)) := by
          simp only [groupStep, hrid, hget]
        rw [hstep, ih]
        have hstray1 : strays (dictAppendItem m rid (itemPayload it))
            rest = strays m rest := by
          unfold strays
          rw [List.filter_congr (fun it2 _ =>
            strayFilter_dictAppendItem m rid (itemPayload it) it2)]
        have hstray2 : strays m (it :: rest) = strays m rest := by
          refine strays_cons_neg m it rest ?_
          simp [strayFilter, hrid, hget]
        have hmap : (dictAppendItem m rid (itemPayload it)).map
            (updEntry rest) = m.map (updEntry (it :: rest)) := by
          unfold dictAppendItem
          rw [List.map_map]
          refine List.map_congr_left (fun kv _ => ?_)
          show updEntry rest (if kv.1 = rid
            then (kv.1, { kv.2 with items := kv.2.items ++ [itemPayload it] })
            else kv) = updEntry (it :: rest) kv
          by_cases hk : kv.1 = rid
          · rw [if_pos hk]
            unfold updEntry
            show (kv.1, { kv.2 with items :=
              (kv.2.items ++ [itemPayload it]) ++ itemsFor kv.1 rest }) =
              (kv.1, { kv.2 with items :=
                kv.2.items ++ itemsFor kv.1 (it :: rest) })
            rw [itemsFor_cons_self kv.1 it rest (by rw [hrid, hk]),
              List.append_assoc, List.singleton_append]
          · rw [if_neg hk]
            unfold updEntry
            rw [itemsFor_cons_other kv.1 it rest rid hrid
              (fun he => hk he.symm)]
        rw [hstray1, hstray2, hmap]

/-- The shape of a successful Get Lesson Detail response: the tea-room
list holds the strays of the grouping loop, the host and guest tabs
hold the role-filtered updated entry-map values. -/
theorem get_lesson_detail_ok_shape (db : DB) (lid : Nat)
    (d : LessonDetail) (hok : get_lesson_detail db lid = .ok d) :
    ∃ lesson, db.lessons.find? (fun l => l.id = lid && l.userId = 1) =
        some lesson ∧
      d = { lessonId := lesson.id
            practicedOn := lesson.practicedOn
            practiceName := lesson.practiceName
            chashitsu := strays (buildEntryMap (lessonEntries db lid))
              (lessonItems db lid)
            teishu := (((buildEntryMap (lessonEntries db lid)).map
              (updEntry (lessonItems db lid))).map
                (fun kv => kv.2)).filter (fun v => v.role = "teishu")
            kyaku := (((buildEntryMap (lessonEntries db lid)).map
              (updEntry (lessonItems db lid))).map
                (fun kv => kv.2)).filter (fun v => v.role = "kyaku") } := by
  cases hfind : db.lessons.find? (fun l => l.id = lid && l.userId = 1) with
  | none =>
    simp only [get_lesson_detail, hfind] at hok
    exact absurd hok (by simp)
  | some lesson =>
    simp only [get_lesson_detail, hfind, Except.ok.injEq] at hok
    refine ⟨lesson, rfl, ?_⟩
    rw [← hok]
    have hst : groupItems (lessonItems db lid)
        ([], buildEntryMap (lessonEntries db lid)) =
        (strays (buildEntryMap (lessonEntries db lid))
          (lessonItems db lid),
         (buildEntryMap (lessonEntries db lid)).map
           (updEntry (lessonItems db lid))) := by
      rw [groupItems_charact, List.nil_append]
    rw [hst]

/-! ### Counting payloads across the response -/

theorem occ_nil (p : ItemPayload) : occ [] p = 0 := rfl

theorem occ_cons (q : ItemPayload) (l : List ItemPayload)
    (p : ItemPayload) :
    occ (q :: l) p = occ l p + (if q = p then 1 else 0) := by
  unfold occ
  rw [List.countP_cons]
  congr 1
  by_cases h : q = p <;> simp [h]

theorem occ_eq_zero_of_not_mem (l : List ItemPayload) (p : ItemPayload)
    (h : p ∉ l) : occ l p = 0 := by
  unfold occ
  rw [List.countP_eq_zero]
  intro q hq
  simp only [decide_eq_true_eq]
  rintro rfl
  exact h hq

theorem occ_of_nodup_mem (l : List ItemPayload) (p : ItemPayload)
    (hnd : l.Nodup) (hp : p ∈ l) : occ l p = 1 := by
  induction l with
  | nil => cases hp
  | cons q t ih =>
    rw [occ_cons]
    rcases List.mem_cons.mp hp with rfl | hp2
    · rw [if_pos rfl,
        occ_eq_zero_of_not_mem t p (List.nodup_cons.mp hnd).1]
    · rw [ih (List.nodup_cons.mp hnd).2 hp2,
        if_neg (fun he => (List.nodup_cons.mp hnd).1
          (show q ∈ t by rw [he]; exact hp2))]

theorem sum_map_add_ite_key (rid : Nat) (c : Nat)
    (f : Nat × EntryOut → Nat) :
    ∀ m : List (Nat × EntryOut), (m.map Prod.fst).Nodup →
      rid ∈ m.map Prod.fst →
      (m.map (fun kv => f kv + (if kv.1 = rid then c else 0))).sum =
        (m.map f).sum + c := by
  intro m
  induction m with
  | nil => intro _ hmem; cases hmem
  | cons kv t ih =>
    intro hnd hmem
    rw [List.map_cons, List.sum_cons, List.map_cons, List.sum_cons]
    rw [List.map_cons, List.nodup_cons] at hnd
    rcases List.mem_cons.mp hmem with h | h
    · rw [if_pos h.symm]
      have hz : t.map (fun kv2 => f kv2 +
          (if kv2.1 = rid then c else 0)) = t.map f := by
        refine List.map_congr_left (fun kv2 hkv2 => ?_)
        rw [if_neg, Nat.add_zero]
        intro he
        exact hnd.1 (by
          rw [← h, ← he]
          exact List.mem_map_of_mem Prod.fst hkv2)
      rw [hz]
      omega
    · have hkne : kv.1 ≠ rid := fun he => hnd.1 (he ▸ h)
      rw [if_neg hkne, ih hnd.2 h]
      omega

theorem count_partition (its : List Item) :
    ∀ m : List (Nat × EntryOut), (m.map Prod.fst).Nodup →
      ∀ pl : ItemPayload,
      occ (strays m its) pl +
        (m.map (fun kv => occ (itemsFor kv.1 its) pl)).sum =
      occ (its.map itemPayload) pl := by
  induction its with
  | nil =>
    intro m _ pl
    have h1 : (m.map (fun kv => occ (itemsFor kv.1 []) pl)).sum = 0 :=
      List.sum_eq_zero (by
        intro x hx
        obtain ⟨kv, _, hkv⟩ := List.mem_map.mp hx
        rw [← hkv]
        rfl)
    rw [h1]
    rfl
  | cons it rest ih =>
    intro m hnd pl
    have hrhs : occ ((it :: rest).map itemPayload) pl =
        occ (rest.map itemPayload) pl +
          (if itemPayload it = pl then 1 else 0) := by
      rw [List.map_cons, occ_cons]
    cases hrid : it.roleEntryId with
    | none =>
      rw [strays_cons_pos m it rest (by simp [strayFilter, hrid]),
        occ_cons]
      have hmapeq : m.map (fun kv => occ (itemsFor kv.1 (it :: rest))
          pl) = m.map (fun kv => occ (itemsFor kv.1 rest) pl) :=
        List.map_congr_left (fun kv _ => by
          rw [itemsFor_cons_none kv.1 it rest hrid])
      rw [hmapeq, hrhs]
      have := ih m hnd pl
      omega
    | some rid =>
      cases hget : dictGet m rid with
      | none =>
        rw [strays_cons_pos m it rest
          (by simp [strayFilter, hrid, hget]), occ_cons]
        have hkeys : ∀ kv ∈ m, kv.1 ≠ rid := by
          intro kv hkv he
          exact ((dictGet_none_iff_keys m rid).mp hget)
            (List.mem_map.mpr ⟨kv, hkv, he⟩)
        have hmapeq : m.map (fun kv => occ (itemsFor kv.1 (it :: rest))
            pl) = m.map (fun kv => occ (itemsFor kv.1 rest) pl) :=
          List.map_congr_left (fun kv hkv => by
            rw [itemsFor_cons_other kv.1 it rest rid hrid
              (fun he => hkeys kv hkv he.symm)])
        rw [hmapeq, hrhs]
        have := ih m hnd pl
        omega
      | some v =>
        rw [strays_cons_neg m it rest
          (by simp [strayFilter, hrid, hget])]
        have hmapeq : m.map (fun kv => occ (itemsFor kv.1 (it :: rest))
            pl) = m.map (fun kv => occ (itemsFor kv.1 rest) pl +
              (if kv.1 = rid then
                (if itemPayload it = pl then 1 else 0) else 0)) :=
          List.map_congr_left (fun kv _ => by
            by_cases hk : kv.1 = rid
            · rw [itemsFor_cons_self kv.1 it rest (by rw [hrid, hk]),
                occ_cons, if_pos hk]
            · rw [itemsFor_cons_other kv.1 it rest rid hrid
                (fun he => hk he.symm), if_neg hk, Nat.add_zero])
        have hmem : rid ∈ m.map Prod.fst := by
          by_contra hc
          rw [(dictGet_none_iff_keys m rid).mpr hc] at hget
          cases hget
        rw [hmapeq, sum_map_add_ite_key rid _ _ m hnd hmem, hrhs]
        have := ih m hnd pl
        omega

theorem sum_filter_partition (l : List EntryOut) (f : EntryOut → Nat)
    (h : ∀ v ∈ l, v.role = "teishu" ∨ v.role = "kyaku") :
    ((l.filter (fun v => v.role = "teishu")).map f).sum +
      ((l.filter (fun v => v.role = "kyaku")).map f).sum =
    (l.map f).sum := by
  induction l with
  | nil => rfl
  | cons v t ih =>
    have hv := h v (List.mem_cons_self _ _)
    have iht := ih (fun w hw => h w (List.mem_cons_of_mem _ hw))
    rcases hv with hv | hv
    · rw [List.filter_cons_of_pos (by simp [hv]),
        List.filter_cons_of_neg (by simp [hv]),
        List.map_cons, List.sum_cons, List.map_cons, List.sum_cons]
      omega
    · rw [List.filter_cons_of_neg (by simp [hv]),
        List.filter_cons_of_pos (by simp [hv]),
        List.map_cons, List.sum_cons, List.map_cons, List.sum_cons]
      omega

theorem mem_lessonItems (db : DB) (lid : Nat) (it : Item)
    (h1 : it ∈ db.items) (h2 : it.lessonId = lid) :
    it ∈ lessonItems db lid := by
  unfold lessonItems
  exact (List.perm_insertionSort itemEarlier _).mem_iff.mpr
    (List.mem_filter.mpr ⟨h1, by simp [h2]⟩)

theorem mem_lessonEntries_elim (db : DB) (lid : Nat) (e : RoleEntry)
    (h : e ∈ lessonEntries db lid) :
    e ∈ db.roleEntries ∧ e.lessonId = lid := by
  unfold lessonEntries at h
  have h1 := (List.perm_insertionSort entryEarlier _).mem_iff.mp h
  have h2 := List.mem_filter.mp h1
  exact ⟨h2.1, by simpa using h2.2⟩

/-- The total payload count of a successful response, reduced to a
count over the grouping-loop buckets. -/
theorem countDetail_eq (db : DB) (lid : Nat)
    (hroles : ∀ e ∈ db.roleEntries, e.lessonId = lid →
      e.role = "teishu" ∨ e.role = "kyaku") (pl : ItemPayload) :
    occ (strays (buildEntryMap (lessonEntries db lid))
        (lessonItems db lid)) pl +
      (((((buildEntryMap (lessonEntries db lid)).map
        (updEntry (lessonItems db lid))).map (fun kv => kv.2)).filter
          (fun v => v.role = "teishu")).map
            (fun v => occ v.items pl)).sum +
      (((((buildEntryMap (lessonEntries db lid)).map
        (updEntry (lessonItems db lid))).map (fun kv => kv.2)).filter
          (fun v => v.role = "kyaku")).map
            (fun v => occ v.items pl)).sum =
    occ ((lessonItems db lid).map itemPayload) pl := by
  have hvroles : ∀ v ∈ ((buildEntryMap (lessonEntries db lid)).map
      (updEntry (lessonItems db lid))).map (fun kv => kv.2),
      v.role = "teishu" ∨ v.role = "kyaku" := by
    intro v hv
    obtain ⟨kv2, hkv2, hv2⟩ := List.mem_map.mp hv
    obtain ⟨kv, hkv, hkv3⟩ := List.mem_map.mp hkv2
    obtain ⟨e, he, hkve⟩ := mem_buildEntryMap_shape _ kv hkv
    have hrole : v.role = e.role := by
      rw [← hv2, ← hkv3, hkve]
      rfl
    obtain ⟨he1, he2⟩ := mem_lessonEntries_elim db lid e he
    rw [hrole]
    exact hroles e he1 he2
  have hpart := sum_filter_partition _ (fun v => occ v.items pl) hvroles
  have hsum : ((((buildEntryMap (lessonEntries db lid)).map
      (updEntry (lessonItems db lid))).map (fun kv => kv.2)).map
        (fun v => occ v.items pl)).sum =
      ((buildEntryMap (lessonEntries db lid)).map
        (fun kv => occ (itemsFor kv.1 (lessonItems db lid)) pl)).sum := by
    rw [List.map_map, List.map_map]
    congr 1
    refine List.map_congr_left (fun kv hkv => ?_)
    obtain ⟨e, he, hkve⟩ := mem_buildEntryMap_shape _ kv hkv
    rw [hkve]
    rfl
  have hcp := count_partition (lessonItems db lid)
    (buildEntryMap (lessonEntries db lid))
    (nodup_keys_buildEntryMap _) pl
  omega

/-! ### C1 (amended): each item appears exactly once -/

/-- C1 as amended: on a successful Get Lesson Detail in a state where
every role entry of the lesson has role "teishu" or "kyaku" (items may
still reference missing role entries), every payload occurs in the
response exactly as often as among the lesson's item rows; in
particular, with pairwise-distinct rows, each item of the lesson
appears exactly once. -/
theorem lesson_items_once (db : DB) (lid : Nat) (d : LessonDetail)
    (hok : get_lesson_detail db lid = .ok d)
    (hroles : ∀ e ∈ db.roleEntries, e.lessonId = lid →
      e.role = "teishu" ∨ e.role = "kyaku") :
    (∀ pl, countDetail d pl =
      occ ((lessonItems db lid).map itemPayload) pl) ∧
    (((lessonItems db lid).map itemPayload).Nodup →
      ∀ it ∈ db.items, it.lessonId = lid →
        countDetail d (itemPayload it) = 1) := by
  obtain ⟨lesson, hfind, hd⟩ := get_lesson_detail_ok_shape db lid d hok
  have hmain : ∀ pl, countDetail d pl =
      occ ((lessonItems db lid).map itemPayload) pl := by
    intro pl
    rw [hd]
    exact countDetail_eq db lid hroles pl
  refine ⟨hmain, fun hnd it hit hlid => ?_⟩
  rw [hmain (itemPayload it)]
  exact occ_of_nodup_mem _ _ hnd
    (List.mem_map_of_mem itemPayload (mem_lessonItems db lid it hit hlid))

/-- C1 counterexample: in a database state holding a role entry with the
unexpected role "hanto", the item referencing it belongs to the lesson
yet occurs zero times in the response — not once, as the claim demands
of every database state. -/
theorem lesson_items_once_cex :
    exOddItem ∈ exOddDB.items ∧ exOddItem.lessonId = 1 ∧
    get_lesson_detail exOddDB 1 = .ok exOddDetail ∧
    countDetail exOddDetail (itemPayload exOddItem) = 0 :=
  ⟨by decide, by decide, by rfl, by rfl⟩

/-- Evaluation witness for the amended C1: the orphaned item of `exDB`
appears exactly once. -/
theorem lesson_items_once_witness :
    countDetail exDetail (itemPayload exOrphanItem) = 1 := by
  have h := lesson_items_once exDB 1 exDetail (by rfl) (by decide)
  exact h.2 (by decide) exOrphanItem (by decide) (by decide)

/-! ### C7: orphaned references fall back to the tea-room tab -/

/-- C7: when the lesson exists and is owned, an item of the lesson whose
role-entry reference matches no role entry of that lesson still appears
in the response — in the tea-room list — and the operation succeeds. -/
theorem orphan_in_chashitsu (db : DB) (lid : Nat) (it : Item)
    (rid : Nat) (l0 : Lesson)
    (hl : db.lessons.find? (fun l => l.id = lid && l.userId = 1) =
      some l0)
    (hit : it ∈ db.items) (hlid : it.lessonId = lid)
    (hrid : it.roleEntryId = some rid)
    (horphan : ∀ e ∈ db.roleEntries, e.lessonId = lid → e.id ≠ rid) :
    ∃ d, get_lesson_detail db lid = .ok d ∧
      itemPayload it ∈ d.chashitsu := by
  cases hok : get_lesson_detail db lid with
  | error err =>
    simp only [get_lesson_detail, hl] at hok
    exact absurd hok (by simp)
  | ok d =>
    refine ⟨d, rfl, ?_⟩
    obtain ⟨lesson, hfind, hd⟩ := get_lesson_detail_ok_shape db lid d hok
    rw [hd]
    show itemPayload it ∈ strays (buildEntryMap (lessonEntries db lid))
      (lessonItems db lid)
    unfold strays
    refine List.mem_map_of_mem itemPayload (List.mem_filter.mpr
      ⟨mem_lessonItems db lid it hit hlid, ?_⟩)
    have hnone : dictGet (buildEntryMap (lessonEntries db lid)) rid =
        none := by
      rw [dictGet_none_iff_keys]
      intro hmem
      obtain ⟨e, he, heid⟩ := keys_buildEntryMap_sub _ rid hmem
      obtain ⟨he1, he2⟩ := mem_lessonEntries_elim db lid e he
      exact horphan e he1 he2 heid
    simp [strayFilter, hrid, hnone]

/-- Evaluation witness for C7 at a concrete state. -/
theorem orphan_in_chashitsu_witness :
    get_lesson_detail exDB 1 = .ok exDetail ∧
    itemPayload exOrphanItem ∈ exDetail.chashitsu := by
  obtain ⟨d, hd, hm⟩ := orphan_in_chashitsu exDB 1 exOrphanItem 99
    exLesson (by rfl) (by decide) (by decide) (by decide) (by decide)
  have he : get_lesson_detail exDB 1 = .ok exDetail := by rfl
  refine ⟨he, ?_⟩
  rw [hd] at he
  have hde : d = exDetail := by simpa using he
  rw [← hde]
  exact hm

/-! ### C10: entries with an unexpected role are invisible -/

/-- C10: a role entry whose role is neither "teishu" nor "kyaku" shows
up in neither tab of Get Lesson Detail; an item referencing such an
entry appears nowhere in the response; and data created through Create
Role Entry never exhibits this, since that endpoint only admits the two
role values. -/
theorem unknown_role_invisible :
    (∀ db lid d, get_lesson_detail db lid = Except.ok d →
      (∀ v ∈ d.teishu, v.role = "teishu") ∧
      (∀ v ∈ d.kyaku, v.role = "kyaku")) ∧
    (∀ db lid d it rid,
      get_lesson_detail db lid = Except.ok d →
      it ∈ db.items → it.lessonId = lid → it.roleEntryId = some rid →
      (∃ e, e ∈ db.roleEntries ∧ e.lessonId = lid ∧ e.id = rid) →
      (∀ e ∈ db.roleEntries, e.lessonId = lid → e.id = rid →
        e.role ≠ "teishu" ∧ e.role ≠ "kyaku") →
      countDetail d (itemPayload it) = 0) ∧
    (∀ db lid body now db2 res,
      create_role_entry db lid body now = (db2, res) →
      ∀ e ∈ db2.roleEntries, e ∈ db.roleEntries ∨
        e.role = "teishu" ∨ e.role = "kyaku") := by
  refine ⟨?_, ?_, ?_⟩
  · intro db lid d hok
    obtain ⟨lesson, hfind, hd⟩ := get_lesson_detail_ok_shape db lid d hok
    constructor
    · intro v hv
      rw [hd] at hv
      have hv2 : v ∈ (((buildEntryMap (lessonEntries db lid)).map
          (updEntry (lessonItems db lid))).map (fun kv => kv.2)).filter
            (fun v2 => v2.role = "teishu") := hv
      simpa using (List.mem_filter.mp hv2).2
    · intro v hv
      rw [hd] at hv
      have hv2 : v ∈ (((buildEntryMap (lessonEntries db lid)).map
          (updEntry (lessonItems db lid))).map (fun kv => kv.2)).filter
            (fun v2 => v2.role = "kyaku") := hv
      simpa using (List.mem_filter.mp hv2).2
  · intro db lid d it rid hok hit hlid hrid hex hroles
    obtain ⟨lesson, hfind, hd⟩ := get_lesson_detail_ok_shape db lid d hok
    obtain ⟨e0, he0, he0lid, he0id⟩ := hex
    have hkey : rid ∈ (buildEntryMap (lessonEntries db lid)).map
        Prod.fst := by
      have hmem : e0 ∈ lessonEntries db lid := by
        unfold lessonEntries
        exact (List.perm_insertionSort entryEarlier _).mem_iff.mpr
          (List.mem_filter.mpr ⟨he0, by simp [he0lid]⟩)
      have h2 := entry_id_in_buildEntryMap _ e0 hmem
      rw [he0id] at h2
      exact h2
    have hch : occ (strays (buildEntryMap (lessonEntries db lid))
        (lessonItems db lid)) (itemPayload it) = 0 := by
      apply occ_eq_zero_of_not_mem
      intro hmem
      obtain ⟨it2, hit2, hpe⟩ := List.mem_map.mp hmem
      have hf := List.mem_filter.mp hit2
      have hrid2 : it2.roleEntryId = some rid := by
        have h2 : it2.roleEntryId = it.roleEntryId :=
          congrArg ItemPayload.roleEntryId hpe
        rw [h2, hrid]
      have hsf := hf.2
      simp only [strayFilter, hrid2] at hsf
      rw [Option.isNone_iff_eq_none, dictGet_none_iff_keys] at hsf
      exact hsf hkey
    have hval : ∀ v, v ∈ ((buildEntryMap (lessonEntries db lid)).map
        (updEntry (lessonItems db lid))).map (fun kv => kv.2) →
        (v.role = "teishu" ∨ v.role = "kyaku") →
        occ v.items (itemPayload it) = 0 := by
      intro v hv hrole
      obtain ⟨kv2, hkv2, hv2⟩ := List.mem_map.mp hv
      obtain ⟨kv, hkv, hkv3⟩ := List.mem_map.mp hkv2
      obtain ⟨e, he, hkve⟩ := mem_buildEntryMap_shape _ kv hkv
      apply occ_eq_zero_of_not_mem
      intro hmem
      have hvitems : v.items = itemsFor kv.1 (lessonItems db lid) := by
        rw [← hv2, ← hkv3, hkve]
        rfl
      rw [hvitems] at hmem
      obtain ⟨it2, hit2, hpe⟩ := List.mem_map.mp hmem
      have hf2 := List.mem_filter.mp hit2
      have hr2 : it2.roleEntryId = some kv.1 := by simpa using hf2.2
      have heq : it2.roleEntryId = some rid := by
        have h2 : it2.roleEntryId = it.roleEntryId :=
          congrArg ItemPayload.roleEntryId hpe
        rw [h2, hrid]
      have hkrid : kv.1 = rid := by
        rw [hr2] at heq
        exact Option.some_inj.mp heq
      have hvrole : v.role = e.role := by
        rw [← hv2, ← hkv3, hkve]
        rfl
      have heid : e.id = rid := by
        have h3 : kv.1 = e.id := by rw [hkve]
        rw [← h3]
        exact hkrid
      obtain ⟨he1, he2⟩ := mem_lessonEntries_elim db lid e he
      have hne := hroles e he1 he2 heid
      rcases hrole with h | h
      · exact hne.1 (by rw [← hvrole]; exact h)
      · exact hne.2 (by rw [← hvrole]; exact h)
    have hz1 : ((((((buildEntryMap (lessonEntries db lid)).map
        (updEntry (lessonItems db lid))).map (fun kv => kv.2)).filter
          (fun v => v.role = "teishu")).map
            (fun v => occ v.items (itemPayload it))).sum) = 0 := by
      refine List.sum_eq_zero ?_
      intro x hx
      obtain ⟨v, hv, hxv⟩ := List.mem_map.mp hx
      have hmf := List.mem_filter.mp hv
      rw [← hxv]
      exact hval v hmf.1 (Or.inl (by simpa using hmf.2))
    have hz2 : ((((((buildEntryMap (lessonEntries db lid)).map
        (updEntry (lessonItems db lid))).map (fun kv => kv.2)).filter
          (fun v => v.role = "kyaku")).map
            (fun v => occ v.items (itemPayload it))).sum) = 0 := by
      refine List.sum_eq_zero ?_
      intro x hx
      obtain ⟨v, hv, hxv⟩ := List.mem_map.mp hx
      have hmf := List.mem_filter.mp hv
      rw [← hxv]
      exact hval v hmf.1 (Or.inr (by simpa using hmf.2))
    rw [hd]
    show occ (strays (buildEntryMap (lessonEntries db lid))
        (lessonItems db lid)) (itemPayload it) + _ + _ = 0
    rw [hch, hz1, hz2]
  · intro db lid body now db2 res h e he
    cases hfind : db.lessons.find? (fun l => l.id = lid &&
        l.userId = 1) with
    | none =>
      simp only [create_role_entry, hfind, Prod.mk.injEq] at h
      rw [← h.1] at he
      exact Or.inl he
    | some lesson =>
      simp only [create_role_entry, hfind, Prod.mk.injEq] at h
      rw [← h.1] at he
      have he2 : e ∈ db.roleEntries ++
          [{ id := nextRoleEntryId db, lessonId := lid,
             role := body.role.toStr, temaeName := body.temaeName,
             note := body.note, createdAt := now }] := he
      rcases List.mem_append.mp he2 with h3 | h3
      · exact Or.inl h3
      · have hrole : e.role = body.role.toStr := by
          rw [List.mem_singleton.mp h3]
        cases hb : body.role with
        | teishu =>
          rw [hb] at hrole
          exact Or.inr (Or.inl hrole)
        | kyaku =>
          rw [hb] at hrole
          exact Or.inr (Or.inr hrole)

/-- Evaluation witness for C10 at a concrete state: the item referencing
the "hanto" entry occurs zero times, and every host-tab value indeed has
the host role. -/
theorem unknown_role_invisible_witness :
    countDetail exOddDetail (itemPayload exOddItem) = 0 ∧
    (∀ v ∈ exOddDetail.teishu, v.role = "teishu") := by
  refine ⟨?_, ?_⟩
  · exact unknown_role_invisible.2.1 exOddDB 1 exOddDetail exOddItem 2
      (by rfl) (by decide) (by decide) (by decide)
      ⟨exOddEntry, by decide, by decide, by decide⟩ (by decide)
  · exact (unknown_role_invisible.1 exOddDB 1 exOddDetail (by rfl)).1

end TeaCeremony
